import Mathlib

/-!
Verification of the coinbase/agentkit Python repository against its
natural-language specification.

Shallow embedding conventions:
* Python `str` is modelled as Lean `String`; where character-level reasoning
  is needed the underlying `List Char` (`String.data`) is used.
* Python exceptions are modelled by the `PyError` type; fallible Python code
  becomes `Except PyError α`.  A Python function that catches all exceptions
  and returns a string becomes a total function into `String`.
* Calls into external SDKs (web3, CDP, Allora) are modelled by passing the
  outcome of the call (`Except PyError α`) as an argument: the embedded
  action is a function of the outcomes of its external calls.
* Machine integers do not occur: Python integers are unbounded, matching
  `Int`/`Nat`.
-/

/-- Python exception values.  `str(e)` of an exception constructed with a
single message argument is that message, modelled by `PyError.str`. -/
inductive PyError where
  | valueError (msg : String)
  | notImplementedError (msg : String)
  | exception (msg : String)
deriving DecidableEq

/-- `str(e)` for an exception `e` built from a single message string. -/
def PyError.str : PyError → String
  | .valueError m => m
  | .notImplementedError m => m
  | .exception m => m

instance instDecEqExcept {ε α : Type} [DecidableEq ε] [DecidableEq α] :
    DecidableEq (Except ε α) := fun a b =>
  match a, b with
  | .error e, .error f => decidable_of_iff (e = f) (by simp)
  | .ok x, .ok y => decidable_of_iff (x = y) (by simp)
  | .error _, .ok _ => isFalse (by simp)
  | .ok _, .error _ => isFalse (by simp)

def minusChar : Char := '-'

def dotChar : Char := '.'

def zeroChar : Char := '0'

/-- Value of a digit character (`ord(c) - ord("0")`). -/
def digitVal (c : Char) : Nat := c.toNat - 48

/-- Numeric value of a decimal digit string, as `int` reads one. -/
def digitsToNat (cs : List Char) : Nat := cs.foldl (fun a c => 10 * a + digitVal c) 0

/-- Python `value.split(sep)` for a one-character separator `c`:
splits into the (possibly empty) chunks between occurrences of `c`. -/
def splitOnChar (c : Char) : List Char → List (List Char)
  | [] => [[]]
  | x :: xs =>
    match splitOnChar c xs with
    | [] => [[]]
    | h :: t => if x = c then [] :: h :: t else (x :: h) :: t

/-- Python `s.rstrip("0")`: drop trailing `0` characters. -/
def rstripZeros (cs : List Char) : List Char :=
  (cs.reverse.dropWhile (fun c => c = zeroChar)).reverse

/-- The anchored regular expression from `erc20/utils.py` line 8,
`^(-?)([0-9]*)\.?([0-9]*)$`: an optional minus sign, then digits, then
optionally a dot and digits.  Because the pattern is anchored, a string
matches iff after stripping one leading minus sign, the maximal leading
digit run is followed by nothing, or by a dot and digits only. -/
def matchesDecimalRegex (cs : List Char) : Bool :=
  let cs1 := if cs.head? = some minusChar then cs.tail else cs
  match cs1.dropWhile Char.isDigit with
  | [] => true
  | c :: t => c = dotChar && t.all Char.isDigit

/-- Message of the `ValueError` raised by Python `int(s)` on a bad literal. -/
def intErrMsg (cs : List Char) : String :=
  "invalid literal for int() with base 10: " ++ String.mk cs

/-- Python `int(s)` restricted to the literal shapes produced inside
`parse_units` (an optional minus sign followed by decimal digits); every
other string raises `ValueError`.  (Full Python `int` additionally accepts
surrounding whitespace, a plus sign and digit-group underscores, none of
which can reach the `int` calls in `parse_units`.) -/
def pyIntList (cs : List Char) : Except PyError Int :=
  match cs with
  | [] => .error (.valueError (intErrMsg []))
  | c :: t =>
    if c = minusChar then
      if t ≠ [] ∧ t.all Char.isDigit then .ok (-(digitsToNat t : Int))
      else .error (.valueError (intErrMsg (c :: t)))
    else
      if (c :: t).all Char.isDigit then .ok ((digitsToNat (c :: t) : Int))
      else .error (.valueError (intErrMsg (c :: t)))

/-- Round `n / d` (with `d > 0`) to the nearest natural number, ties to the
even neighbour — the rounding mode of Python `round`. -/
def roundHalfToEven (n d : Nat) : Nat :=
  let q := n / d
  let r := n % d
  if 2 * r < d then q else if d < 2 * r then q + 1 else if q % 2 = 0 then q else q + 1

/-- Model of Python `round(float(f"{ipart}.{fpart}"))` at the two call sites
in `parse_units`, where `ipart` and `fpart` are digit strings.  The decimal
value is rounded exactly (half to even).  The Python original first converts
the decimal literal to a binary double; that conversion can move a value
across a rounding boundary only for literals that agree with a half-integer
for more than sixteen significant digits.  No claim settled below depends on
the rounding result at such literals: the confirmed claims never reach the
rounding branches, and the error-path claims hold for every rounding
result. -/
def pyRoundFrac (ipart fpart : List Char) : Nat :=
  roundHalfToEven (digitsToNat (ipart ++ fpart)) (10 ^ fpart.length)

/-- `[-]` or `[]`, the sign part of the digit string rebuilt by
`parse_units` line 42. -/
def signList (negative : Bool) : List Char := if negative then [minusChar] else []

/-- Lines 21-24 of `erc20/utils.py` (the `decimals == 0` branch): when the
stripped fraction is nonempty and rounds up, increment `int(integer)`;
the fraction becomes empty, so the result is the signed integer part. -/
def roundZeroCase (negative : Bool) (integer fraction : List Char) : Except PyError Int :=
  if fraction ≠ [] ∧ pyRoundFrac [zeroChar] fraction = 1 then
    match pyIntList integer with
    | .error e => .error e
    | .ok n => pyIntList (signList negative ++ (toString (n + 1)).data)
  else
    pyIntList (signList negative ++ integer)

/-- Python `s.zfill(n)`: left-pad with `0` to length `n` (the strings passed
here never carry a sign). -/
def zfill (cs : List Char) (n : Nat) : List Char :=
  List.replicate (n - cs.length) zeroChar ++ cs

/-- Lines 25-38 of `erc20/utils.py` (the `len(fraction) > decimals` branch):
round the fraction at position `decimals`, carrying into the integer part
when the rounded fraction overflows. -/
def overflowCase (negative : Bool) (integer fraction : List Char) (decimals : Nat) :
    Except PyError Int :=
  let left := fraction.take (decimals - 1)
  let unit := (fraction.drop (decimals - 1)).take 1
  let right := fraction.drop decimals
  let rounded : Nat := pyRoundFrac unit right
  let fraction2E : Except PyError (List Char) :=
    if rounded > 9 then
      match pyIntList left with
      | .error e => .error e
      | .ok l => .ok (zfill (toString (l + 1)).data (left.length + 1))
    else .ok (left ++ (toString rounded).data)
  match fraction2E with
  | .error e => .error e
  | .ok fraction2 =>
    if fraction2.length > decimals then
      match pyIntList integer with
      | .error e => .error e
      | .ok n => pyIntList (signList negative ++ (toString (n + 1)).data ++ (fraction2.drop 1).take decimals)
    else
      pyIntList (signList negative ++ integer ++ fraction2.take decimals)

/-- `parse_units` from
`coinbase_agentkit/action_providers/erc20/utils.py` lines 6-43, the Python
port of viem parseUnits.  Guard with the decimal regex, split on the dot,
strip a leading minus and trailing fraction zeros, then rebuild the digit
string scaled by `10 ^ decimals` and read it back with `int`. -/
def parse_units (value : String) (decimals : Nat) : Except PyError Int :=
  if matchesDecimalRegex value.data then
    let parts := splitOnChar dotChar value.data
    let integer0 := parts.getD 0 []
    let fraction0 := if parts.length > 1 then parts.getD 1 [] else [zeroChar]
    let negative : Bool := integer0.head? = some minusChar
    let integer1 := if negative then integer0.tail else integer0
    let fraction1 := rstripZeros fraction0
    if decimals = 0 then
      roundZeroCase negative integer1 fraction1
    else if fraction1.length > decimals then
      overflowCase negative integer1 fraction1 decimals
    else
      pyIntList (signList negative ++ integer1 ++
        (fraction1 ++ List.replicate (decimals - fraction1.length) zeroChar))
  else .error (.valueError ("Invalid decimal number: " ++ value))

/-- The rational number denoted by a decimal string with sign `neg`,
integer digits `I` and fraction digits `F` (specification-side denotation,
used to state exactness of `parse_units`). -/
def decimalRat (neg : Bool) (I F : List Char) : ℚ :=
  (if neg then -1 else 1) * ((digitsToNat I : ℚ) + (digitsToNat F : ℚ) / 10 ^ F.length)

/-- The decimal string with sign `neg`, integer digits `I`, and — when
`hasDot` is set — a dot followed by the fraction digits `F`. -/
def decimalString (neg hasDot : Bool) (I F : List Char) : String :=
  String.mk (signList neg ++ I ++ (if hasDot then dotChar :: F else []))

/-- `Network` from `coinbase_agentkit/network.py` (the module itself is not
among the provided sources; the field set is fixed by the spec sentence
listing protocol family, network id and chain id, and by every use site,
e.g. `smart_wallet_provider.py` lines 39-43 and the onramp tests, where
`network_id` and `chain_id` may be `None`). -/
structure Network where
  protocol_family : String
  network_id : Option String
  chain_id : Option String
deriving DecidableEq

/-- Python truthiness test `not x` for an `Optional[str]` value:
true for `None` and for the empty string. -/
def pyFalsyStrOpt : Option String → Bool
  | none => true
  | some s => s = ""

/-- `convert_network_id_to_onramp_network_id` from
`onramp/utils/network_conversion.py` lines 5-16: `dict.get` on the mapping
base-mainnet to base, base-sepolia to base-sepolia. -/
def convert_network_id_to_onramp_network_id (network_id : String) : Option String :=
  if network_id = "base-mainnet" then some "base"
  else if network_id = "base-sepolia" then some "base-sepolia"
  else none

/-- UTF-8 bytes of a character, as byte values below 256. -/
def utf8Bytes (c : Char) : List Nat :=
  let n := c.toNat
  if n < 128 then [n]
  else if n < 2048 then [192 + n / 64, 128 + n % 64]
  else if n < 65536 then [224 + n / 4096, 128 + (n / 64) % 64, 128 + n % 64]
  else [240 + n / 262144, 128 + (n / 4096) % 64, 128 + (n / 64) % 64, 128 + n % 64]

/-- Uppercase hexadecimal digit for a value below 16. -/
def hexDigit (n : Nat) : Char := if n < 10 then Char.ofNat (48 + n) else Char.ofNat (55 + n)

/-- `%XX` percent escape of one byte. -/
def percentByte (b : Nat) : List Char := ['%', hexDigit (b / 16), hexDigit (b % 16)]

/-- Characters that `urllib.parse.quote_plus` leaves unescaped with the
default empty safe set: ASCII letters, digits, and `_ . - ~`. -/
def isUrlSafe (c : Char) : Bool :=
  (c.isAlpha && c.toNat < 128) || c.isDigit || c = '_' || c = dotChar || c = minusChar || c = '~'

/-- `urllib.parse.quote_plus`: keep safe characters, turn spaces into `+`,
percent-encode the UTF-8 bytes of everything else. -/
def quote_plus (s : String) : String :=
  String.mk (s.data.foldr
    (fun c acc =>
      if isUrlSafe c then c :: acc
      else if c = ' ' then '+' :: acc
      else (utf8Bytes c).foldr (fun b acc2 => percentByte b ++ acc2) acc)
    [])

/-- `urllib.parse.urlencode` on an already-ordered list of string pairs:
join `key=value` chunks with `&`, each side quoted by `quote_plus`. -/
def urlencode (ps : List (String × String)) : String :=
  String.intercalate "&" (ps.map (fun p => quote_plus p.1 ++ "=" ++ quote_plus p.2))

/-- Lexicographic order on character lists by code point — the order Python
uses to compare strings. -/
def charListLe : List Char → List Char → Bool
  | [], _ => true
  | _ :: _, [] => false
  | a :: as, b :: bs => if a = b then charListLe as bs else decide (a < b)

/-- Python string comparison `a <= b`: lexicographic by code point. -/
def pyStrLe (a b : String) : Bool := charListLe a.data b.data

/-- Python `sorted` on `dict.items()`: tuples are compared componentwise, so
with pairwise distinct keys (the case at the one call site) the order is the
key order.  Modelled as a stable insertion sort on the key. -/
def pySortedByKey (ps : List (String × String)) : List (String × String) :=
  List.insertionSort (fun a b => pyStrLe a.1 b.1 = true) ps

/-- Modelled from the spec: the constants `ONRAMP_BUY_URL` and `VERSION`
from `onramp/utils/constants.py` are not among the provided sources.  They
are plain string constants (the onramp base URL and the onchainkit version
tag); no settled claim depends on their values, only on how
`get_onramp_buy_url` assembles them into the result. -/
def ONRAMP_BUY_URL : String := "https://pay.coinbase.com/buy"

/-- Modelled from the spec: see `ONRAMP_BUY_URL`. -/
def VERSION : String := "latest"

/-- `json.dumps({address: [network]})` as built at
`onramp_action_provider.py` line 72: a one-key object whose value is a
one-element array.  (Braces are produced from their character codes.) -/
def jsonAddresses (address network : String) : String :=
  String.mk ([Char.ofNat 123, '"'] ++ address.data ++ ['"', ':', ' ', '['] ++
    ['"'] ++ network.data ++ ['"', ']', Char.ofNat 125])

/-- The parameter dictionary built at `onramp_action_provider.py` lines
70-76, in insertion order.  All five values are non-None strings, so the
`cleaned_params` comprehension at line 79 (drop None values, apply `str`) is
the identity on it. -/
def onrampParams (project_id address network asset : String) : List (String × String) :=
  [("appId", project_id),
   ("addresses", jsonAddresses address network),
   ("defaultAsset", asset),
   ("defaultNetwork", network),
   ("sdkVersion", "onchainkit@" ++ VERSION)]

/-- `OnrampActionProvider` (`onramp_action_provider.py` lines 16-31): the
base-class fields set by `super().__init__("onramp", [])` and the
`project_id` field. -/
structure OnrampActionProvider where
  name : String
  action_providers : List Unit
  project_id : String
deriving DecidableEq

/-- `OnrampActionProvider(project_id)` (lines 23-31). -/
def onramp_action_provider (project_id : String) : OnrampActionProvider :=
  { name := "onramp", action_providers := [], project_id := project_id }

/-- `OnrampActionProvider.get_onramp_buy_url` (lines 47-83).  The wallet
provider calls `get_network()` and `get_address()` are passed in as their
outcomes; the method has no try/except, so any exception from them
propagates, and it raises `ValueError` itself for a falsy or unmapped
network id.  The method reads `self.project_id` and writes no field of
`self`; state passing makes that explicit: the second component is the
provider after the call. -/
def OnrampActionProvider.get_onramp_buy_url (self : OnrampActionProvider)
    (get_network : Except PyError Network) (get_address : Except PyError String)
    (asset : String) : (Except PyError String) × OnrampActionProvider :=
  (match get_network with
   | .error e => .error e
   | .ok network0 =>
     if pyFalsyStrOpt network0.network_id then .error (.valueError "Network ID is not set")
     else
       match convert_network_id_to_onramp_network_id (network0.network_id.getD "") with
       | none => .error (.valueError "Network ID is not supported")
       | some network =>
         match get_address with
         | .error e => .error e
         | .ok address =>
           .ok (ONRAMP_BUY_URL ++ "?" ++
             urlencode (pySortedByKey (onrampParams self.project_id address network asset))),
   self)

/-- `OnrampActionProvider.supports_network` (lines 85-95). -/
def OnrampActionProvider.supports_network (self : OnrampActionProvider)
    (network : Network) : Bool :=
  network.protocol_family = "evm"

/-- `AlloraAPIClient` as constructed at `allora_action_provider.py` lines
34-37: the SDK client object, carrying the key and chain slug it was built
with. -/
structure AlloraAPIClient where
  api_key : String
  chain_slug : String
deriving DecidableEq

/-- `AlloraActionProvider` (lines 18-37): base-class fields from
`super().__init__("allora", [])` plus the `client` field. -/
structure AlloraActionProvider where
  name : String
  action_providers : List Unit
  client : AlloraAPIClient
deriving DecidableEq

/-- `AlloraActionProvider.__init__` (lines 21-37).  Note `api_key or
default`: Python `or` falls through on `None` and on the empty string. -/
def allora_action_provider_init (api_key : Option String) (chain_slug : Option String) :
    AlloraActionProvider :=
  { name := "allora"
    action_providers := []
    client :=
      { api_key := if pyFalsyStrOpt api_key then "UP-4151d0cc489a44a7aa5cd7ef" else api_key.getD ""
        chain_slug := if pyFalsyStrOpt chain_slug then "testnet" else chain_slug.getD "" } }

/-- `AlloraActionProvider.get_all_topics` (lines 71-78).  The awaited SDK
call together with `json.dumps` of its result is modelled by its outcome
`topics_json`; every exception is caught and rendered.  State passing makes
the absence of writes to `self` explicit. -/
def AlloraActionProvider.get_all_topics (self : AlloraActionProvider)
    (topics_json : Except PyError String) : String × AlloraActionProvider :=
  (match topics_json with
   | .ok t => "The available topics at Allora Network are:\n " ++ t
   | .error e => "Error getting all topics: " ++ e.str,
   self)

/-- `ERC20ActionProvider` (`erc20_action_provider.py` lines 13-18): fields
from `super().__init__("erc20", [])`.

Modelled from the spec: the `ActionProvider` base class
(`action_providers/action_provider.py`) is not among the provided sources.
The spec describes it as carrying a name and a list of supported networks,
so the second constructor argument is modelled as that list
(`supported_networks`); every concrete provider in the sources passes `[]`
for it and overrides `supports_network`. -/
structure ERC20ActionProvider where
  name : String
  supported_networks : List Network
deriving DecidableEq

/-- `erc20_action_provider()` (lines 139-146) building
`ERC20ActionProvider()` (lines 16-18). -/
def erc20_action_provider : ERC20ActionProvider :=
  { name := "erc20", supported_networks := [] }

/-- `ERC20ActionProvider.supports_network` (lines 126-136). -/
def ERC20ActionProvider.supports_network (self : ERC20ActionProvider)
    (network : Network) : Bool :=
  network.protocol_family = "evm"

/-- Body of `ERC20ActionProvider.get_balance` (lines 48-57, the try block):
validate `args` into `contract_address`, call `get_address`, call
`read_contract` with both, and format the balance message. -/
def ERC20ActionProvider.get_balance_body
    (validate : Except PyError String) (get_address : Except PyError String)
    (read_contract : String → String → Except PyError String) : Except PyError String :=
  match validate with
  | .error e => .error e
  | .ok contract_address =>
    match get_address with
    | .error e => .error e
    | .ok address =>
      match read_contract contract_address address with
      | .error e => .error e
      | .ok balance => .ok ("Balance of " ++ contract_address ++ " is " ++ balance)

/-- `ERC20ActionProvider.get_balance` (lines 47-59).  The schema validation
of `args` (yielding `contract_address`), the `get_address` call and the
`read_contract` call are passed as outcomes; the body catches every
exception and renders it with the `Error getting balance:` prefix.  The
method reads no field of `self`. -/
def ERC20ActionProvider.get_balance
    (validate : Except PyError String) (get_address : Except PyError String)
    (read_contract : String → String → Except PyError String) : String :=
  match ERC20ActionProvider.get_balance_body validate get_address read_contract with
  | .ok s => s
  | .error e => "Error getting balance: " ++ e.str

/-- `WalletActionProvider.supports_network` (`wallet_action_provider.py`
lines 145-147): always true. -/
def WalletActionProvider.supports_network (network : Network) : Bool := true

/-- Body of `WalletActionProvider.native_transfer` (lines 138-141 inside the
try block): validate `args` into `(to, value)` (the `Decimal` value is
modelled by its string rendering used in the f-strings), call the wallet
provider, and format the success message. -/
def WalletActionProvider.native_transfer_body
    (validate : Except PyError (String × String))
    (transfer : String → String → Except PyError String) : Except PyError String :=
  match validate with
  | .error e => .error e
  | .ok tv =>
    match transfer tv.1 tv.2 with
    | .error e => .error e
    | .ok tx_hash =>
      .ok ("Successfully transferred " ++ tv.2 ++ " native tokens to " ++ tv.1 ++
        ".\nTransaction hash: " ++ tx_hash)

/-- `WalletActionProvider.native_transfer` (lines 116-143): the try/except
wrapper around the body. -/
def WalletActionProvider.native_transfer
    (validate : Except PyError (String × String))
    (transfer : String → String → Except PyError String) : String :=
  match WalletActionProvider.native_transfer_body validate transfer with
  | .ok s => s
  | .error e => "Error transferring native tokens: " ++ e.str

/-- The result object returned by the CDP `wait_for_user_operation` call in
`smart_wallet_provider.py`. -/
structure UserOperationResult where
  status : String
  transaction_hash : String
deriving DecidableEq

namespace SmartWalletProvider

/-- `SmartWalletProvider.sign_message` (`smart_wallet_provider.py` lines
75-81): raises `NotImplementedError` unconditionally. -/
def sign_message (message : String) : Except PyError String :=
  .error (.notImplementedError "Smart wallets do not support signing raw messages.")

/-- `SmartWalletProvider.sign_typed_data` (lines 83-89). -/
def sign_typed_data (typed_data : List (String × String)) : Except PyError String :=
  .error (.notImplementedError "Smart wallets do not support signing typed data.")

/-- `SmartWalletProvider.sign_transaction` (lines 91-97). -/
def sign_transaction (transaction : List (String × String)) : Except PyError String :=
  .error (.notImplementedError "Smart wallets do not support signing transactions.")

/-- `SmartWalletProvider.send_transaction` (lines 99-112): submit the user
operation and await it (modelled by the outcome `wait_result` of
`wait_for_user_operation(send_user_operation(...))`); return the transaction
hash when the status is complete, raise `Exception("Transaction failed")`
otherwise. -/
def send_transaction (wait_result : Except PyError UserOperationResult) :
    Except PyError String :=
  match wait_result with
  | .error e => .error e
  | .ok result =>
    if result.status = "complete" then .ok result.transaction_hash
    else .error (.exception "Transaction failed")

/-- `SmartWalletProvider.native_transfer` (lines 129-141): same shape as
`send_transaction` with the message `Transfer failed`. -/
def native_transfer (wait_result : Except PyError UserOperationResult) :
    Except PyError String :=
  match wait_result with
  | .error e => .error e
  | .ok result =>
    if result.status = "complete" then .ok result.transaction_hash
    else .error (.exception "Transfer failed")

end SmartWalletProvider

/-- States of the token-swap `ConversationHandler` in
`artist_manager_agent/handlers/blockchain_handlers.py` lines 44-52 and
72-111: the four awaiting states plus the terminated conversation
(`ConversationHandler.END`). -/
inductive SwapState where
  | awaitingFrom
  | awaitingTo
  | awaitingAmount
  | awaitingRoute
  | ended
deriving DecidableEq

/-- The updates the swap conversation reacts to, abstracted from the handler
patterns of lines 72-111.  `amountText` carries whether `float(text)`
succeeds and how many routes `get_swap_routes` returns; `routeCallback`
carries whether the swap call succeeds (both outcomes end the
conversation).  `cancelFallback` is either fallback of lines 104-110. -/
inductive SwapInput where
  | fromTokenCallback (token : String)
  | toTokenCallback (token : String)
  | amountText (parsesAsFloat : Bool) (routesFound : Nat)
  | routeCallback (index : Nat) (swapSucceeds : Bool)
  | cancelSwapCallback
  | cancelFallback
deriving DecidableEq

/-- The transition function of the swap conversation, read off the handler
return values: `handle_swap_from_token` line 486 returns the to-token
state, `handle_swap_to_token` line 501 the amount state,
`handle_swap_amount` lines 503-556 the route state on a parsed amount with
routes, END with no routes, and re-prompts in the amount state on a
`ValueError`; `handle_swap_route` lines 558-598 ends the conversation on
success and on error, `cancel_swap` and the fallbacks end it.  An update no
state handler matches leaves the state unchanged (the conversation-handler
semantics). -/
def swapStep : SwapState → SwapInput → SwapState
  | .awaitingFrom, .fromTokenCallback _ => .awaitingTo
  | .awaitingTo, .toTokenCallback _ => .awaitingAmount
  | .awaitingAmount, .amountText false _ => .awaitingAmount
  | .awaitingAmount, .amountText true 0 => .ended
  | .awaitingAmount, .amountText true (_ + 1) => .awaitingRoute
  | .awaitingRoute, .routeCallback _ _ => .ended
  | .awaitingRoute, .cancelSwapCallback => .ended
  | .ended, _ => .ended
  | s, .cancelFallback => .ended
  | s, _ => s

/-- Whether some handler of the conversation (state handlers of lines
74-103, fallbacks of lines 104-110) matches the update in the given
state; in the ended state the conversation no longer exists. -/
def swapHandled : SwapState → SwapInput → Bool
  | .awaitingFrom, .fromTokenCallback _ => true
  | .awaitingTo, .toTokenCallback _ => true
  | .awaitingAmount, .amountText _ _ => true
  | .awaitingRoute, .routeCallback _ _ => true
  | .awaitingRoute, .cancelSwapCallback => true
  | .ended, _ => false
  | _, .cancelFallback => true
  | _, _ => false

/-- Position of a state in the forward order of the conversation. -/
def swapRank : SwapState → Nat
  | .awaitingFrom => 0
  | .awaitingTo => 1
  | .awaitingAmount => 2
  | .awaitingRoute => 3
  | .ended => 4

/-- C1 (amended): actions wrapped in try/except catch every exception from
validation or the underlying calls and return the human-readable
`Error <doing X>: <message>` string — so for erc20 `get_balance` and allora
`get_all_topics`; onramp `get_onramp_buy_url` does not follow the pattern:
it has no try/except and propagates exceptions of the wallet-provider
calls unchanged. -/
theorem action_error_string_pattern :
    (∀ (v ga : Except PyError String) (rc : String → String → Except PyError String)
        (e : PyError),
        ERC20ActionProvider.get_balance_body v ga rc = .error e →
        ERC20ActionProvider.get_balance v ga rc = "Error getting balance: " ++ e.str)
    ∧ (∀ (self : AlloraActionProvider) (e : PyError),
        (self.get_all_topics (.error e)).1 = "Error getting all topics: " ++ e.str)
    ∧ (∀ (self : OnrampActionProvider) (ga : Except PyError String) (asset : String)
        (e : PyError),
        (self.get_onramp_buy_url (.error e) ga asset).1 = .error e) := by
  refine ⟨fun v ga rc e h => ?_, fun self e => rfl, fun self ga asset e => rfl⟩
  simp [ERC20ActionProvider.get_balance, h]

theorem action_error_string_pattern_witness :
    ERC20ActionProvider.get_balance_body (.error (.exception "boom")) (.ok "0xabc")
        (fun _ _ => .ok "7") = .error (.exception "boom")
    ∧ ERC20ActionProvider.get_balance (.error (.exception "boom")) (.ok "0xabc")
        (fun _ _ => .ok "7") = "Error getting balance: boom" :=
  ⟨rfl, action_error_string_pattern.1 (.error (.exception "boom")) (.ok "0xabc")
    (fun _ _ => .ok "7") (.exception "boom") rfl⟩

/-- C1 counterexample: the onramp action does not catch exceptions of the
underlying `get_network` call — it propagates them instead of returning an
`Error ...` string. -/
theorem onramp_propagates_wallet_exception_cex :
    ((onramp_action_provider "proj").get_onramp_buy_url (.error (.exception "rpc down"))
        (.ok "0x1") "ETH").1 = .error (.exception "rpc down") := rfl

/-- C2 (amended): the try/except-wrapped actions such as wallet
`native_transfer` always return a string (the success message of the body or
the rendered error), but onramp `get_onramp_buy_url` is an exception to the
uniform contract: it raises `ValueError` whenever the network id of the
wallet is `None` or empty. -/
theorem actions_return_string_except_onramp :
    (∀ (v : Except PyError (String × String))
        (t : String → String → Except PyError String),
        (∃ s, WalletActionProvider.native_transfer_body v t = .ok s ∧
              WalletActionProvider.native_transfer v t = s)
        ∨ (∃ e, WalletActionProvider.native_transfer_body v t = .error e ∧
              WalletActionProvider.native_transfer v t =
                "Error transferring native tokens: " ++ e.str))
    ∧ (∀ (self : OnrampActionProvider) (pf : String) (cid : Option String)
        (ga : Except PyError String) (asset : String),
        (self.get_onramp_buy_url (.ok ⟨pf, none, cid⟩) ga asset).1 =
          .error (.valueError "Network ID is not set")) := by
  constructor
  · intro v t
    cases h : WalletActionProvider.native_transfer_body v t with
    | ok s => exact .inl ⟨s, rfl, by simp [WalletActionProvider.native_transfer, h]⟩
    | error e => exact .inr ⟨e, rfl, by simp [WalletActionProvider.native_transfer, h]⟩
  · intro self pf cid ga asset
    rfl

/-- C2 counterexample: a concrete invocation of the onramp action ends by
raising `ValueError`, not by returning a string. -/
theorem onramp_raises_value_error_cex :
    ((onramp_action_provider "proj2").get_onramp_buy_url
        (.ok ⟨"evm", none, some "8453"⟩) (.ok "0x2") "USDC").1 =
      .error (.valueError "Network ID is not set") := rfl

/-- C4 (amended): the smart wallet provider delegates most operations to the
SDK, but `sign_message` does not produce a signature: it (like
`sign_typed_data` and `sign_transaction`) raises `NotImplementedError`
unconditionally, as its own docstring states. -/
theorem smart_wallet_sign_ops_raise :
    (∀ m, SmartWalletProvider.sign_message m =
        .error (.notImplementedError "Smart wallets do not support signing raw messages."))
    ∧ (∀ td, SmartWalletProvider.sign_typed_data td =
        .error (.notImplementedError "Smart wallets do not support signing typed data."))
    ∧ (∀ tx, SmartWalletProvider.sign_transaction tx =
        .error (.notImplementedError "Smart wallets do not support signing transactions.")) :=
  ⟨fun _ => rfl, fun _ => rfl, fun _ => rfl⟩

/-- C4 counterexample: on the concrete message `hello` the smart wallet
`sign_message` raises, so it does not produce a signature. -/
theorem smart_wallet_sign_message_cex :
    SmartWalletProvider.sign_message "hello" =
      .error (.notImplementedError "Smart wallets do not support signing raw messages.") := rfl

/-- C5: action invocations leave the provider instance unchanged — the
state-passing embeddings return the provider exactly as it was, so
`project_id`, `client`, the provider name and the constructor list are the
same after any invocation. -/
theorem action_invocations_stateless :
    (∀ (self : OnrampActionProvider) (gn : Except PyError Network)
        (ga : Except PyError String) (asset : String),
        (self.get_onramp_buy_url gn ga asset).2 = self)
    ∧ (∀ (self : AlloraActionProvider) (tj : Except PyError String),
        (self.get_all_topics tj).2 = self) :=
  ⟨fun _ _ _ _ => rfl, fun _ _ => rfl⟩

/-- C6 (amended): a provider carries the constructor list (empty for every
provider in the sources) but support is decided by the overriding
`supports_network`: the ERC20 provider supports exactly the networks whose
protocol family is `evm`, and the wallet provider supports every network. -/
theorem supports_network_via_override :
    erc20_action_provider.supported_networks = []
    ∧ (∀ n : Network, erc20_action_provider.supports_network n = true ↔
        n.protocol_family = "evm")
    ∧ (∀ n : Network, WalletActionProvider.supports_network n = true) := by
  refine ⟨rfl, fun n => ?_, fun n => rfl⟩
  simp [ERC20ActionProvider.supports_network]

/-- C6 counterexample: base-mainnet is supported by the ERC20 provider even
though it is not in the list the provider was constructed with — so
`supports_network` is not membership in the declared list. -/
theorem erc20_supports_network_not_list_cex :
    erc20_action_provider.supports_network
        { protocol_family := "evm", network_id := some "base-mainnet",
          chain_id := some "8453" } = true
    ∧ ({ protocol_family := "evm", network_id := some "base-mainnet",
          chain_id := some "8453" } : Network) ∉
        erc20_action_provider.supported_networks := by
  exact ⟨rfl, by simp [erc20_action_provider]⟩

/-- C7 (amended): the swap conversation is a bounded machine over the four
awaiting states and END; no transition moves backwards, and every handled
update either ends the conversation, advances it by exactly one state, or —
only for an amount message that fails to parse — re-prompts in the
awaiting-amount state. -/
theorem swap_conversation_progress :
    (∀ s i, swapRank s ≤ swapRank (swapStep s i))
    ∧ (∀ s i, swapHandled s i = true →
        swapStep s i = .ended ∨ swapRank (swapStep s i) = swapRank s + 1 ∨
          (s = .awaitingAmount ∧ swapStep s i = .awaitingAmount)) := by
  constructor
  · intro s i
    cases i with
    | fromTokenCallback t => cases s <;> simp [swapStep, swapRank]
    | toTokenCallback t => cases s <;> simp [swapStep, swapRank]
    | amountText b n => cases s <;> cases b <;> cases n <;> simp [swapStep, swapRank]
    | routeCallback idx ok => cases s <;> simp [swapStep, swapRank]
    | cancelSwapCallback => cases s <;> simp [swapStep, swapRank]
    | cancelFallback => cases s <;> simp [swapStep, swapRank]
  · intro s i h
    cases i with
    | fromTokenCallback t => cases s <;> simp_all [swapStep, swapRank, swapHandled]
    | toTokenCallback t => cases s <;> simp_all [swapStep, swapRank, swapHandled]
    | amountText b n =>
      cases s <;> cases b <;> cases n <;> simp_all [swapStep, swapRank, swapHandled]
    | routeCallback idx ok => cases s <;> simp_all [swapStep, swapRank, swapHandled]
    | cancelSwapCallback => cases s <;> simp_all [swapStep, swapRank, swapHandled]
    | cancelFallback => cases s <;> simp_all [swapStep, swapRank, swapHandled]

theorem swap_conversation_progress_witness :
    swapHandled .awaitingFrom (.fromTokenCallback "eth") = true
    ∧ (swapStep .awaitingFrom (.fromTokenCallback "eth") = .ended ∨
        swapRank (swapStep .awaitingFrom (.fromTokenCallback "eth")) =
          swapRank .awaitingFrom + 1 ∨
        (SwapState.awaitingFrom = .awaitingAmount ∧
          swapStep .awaitingFrom (.fromTokenCallback "eth") = .awaitingAmount)) :=
  ⟨rfl, swap_conversation_progress.2 _ _ rfl⟩

/-- C7 counterexample: an amount message that does not parse as a float
leaves the conversation in the awaiting-amount state, so an input can
re-enter a state instead of moving forward or cancelling, and a run is not
bounded by four inputs. -/
theorem swap_amount_self_loop_cex :
    swapStep .awaitingAmount (.amountText false 0) = .awaitingAmount
    ∧ SwapState.awaitingAmount ≠ .ended := ⟨rfl, by decide⟩

/-- C10: the smart wallet `send_transaction` returns the transaction hash of
the awaited user operation iff its status is `complete`, and raises
`Exception("Transaction failed")` in every other case; `native_transfer`
behaves the same with `Transfer failed`. -/
theorem smart_wallet_tx_status :
    (∀ r : UserOperationResult,
        SmartWalletProvider.send_transaction (.ok r) = .ok r.transaction_hash ↔
          r.status = "complete")
    ∧ (∀ r : UserOperationResult, r.status ≠ "complete" →
        SmartWalletProvider.send_transaction (.ok r) =
          .error (.exception "Transaction failed"))
    ∧ (∀ r : UserOperationResult,
        SmartWalletProvider.native_transfer (.ok r) = .ok r.transaction_hash ↔
          r.status = "complete")
    ∧ (∀ r : UserOperationResult, r.status ≠ "complete" →
        SmartWalletProvider.native_transfer (.ok r) =
          .error (.exception "Transfer failed")) := by
  refine ⟨fun r => ?_, fun r h => ?_, fun r => ?_, fun r h => ?_⟩
  · by_cases h : r.status = "complete" <;>
      simp [SmartWalletProvider.send_transaction, h]
  · simp [SmartWalletProvider.send_transaction, h]
  · by_cases h : r.status = "complete" <;>
      simp [SmartWalletProvider.native_transfer, h]
  · simp [SmartWalletProvider.native_transfer, h]

/-- The five onramp parameter keys, once sorted, come out in this fixed
order whatever the values are: the comparator looks only at the keys. -/
theorem pySortedByKey_onrampParams_keys (pid addr onet asset : String) :
    (pySortedByKey (onrampParams pid addr onet asset)).map Prod.fst =
      ["addresses", "appId", "defaultAsset", "defaultNetwork", "sdkVersion"] := rfl

theorem onramp_keys_sorted :
    List.Sorted (fun a b : String => pyStrLe a b = true)
      ["addresses", "appId", "defaultAsset", "defaultNetwork", "sdkVersion"] := by
  decide

/-- C9: `convert_network_id_to_onramp_network_id` maps base-mainnet to
base, base-sepolia to itself and everything else to None; consequently
`get_onramp_buy_url` (with the wallet calls succeeding) raises `ValueError`
exactly when the network id is unset, empty, or unmapped, and otherwise
returns the onramp URL whose query parameters appear sorted by key. -/
theorem onramp_url_sorted_and_errors :
    convert_network_id_to_onramp_network_id "base-mainnet" = some "base"
    ∧ convert_network_id_to_onramp_network_id "base-sepolia" = some "base-sepolia"
    ∧ (∀ s, s ≠ "base-mainnet" → s ≠ "base-sepolia" →
        convert_network_id_to_onramp_network_id s = none)
    ∧ (∀ (self : OnrampActionProvider) (net : Network) (ga : Except PyError String)
        (asset : String), pyFalsyStrOpt net.network_id = true →
        (self.get_onramp_buy_url (.ok net) ga asset).1 =
          .error (.valueError "Network ID is not set"))
    ∧ (∀ (self : OnrampActionProvider) (net : Network) (ga : Except PyError String)
        (asset nid : String), net.network_id = some nid → nid ≠ "" →
        convert_network_id_to_onramp_network_id nid = none →
        (self.get_onramp_buy_url (.ok net) ga asset).1 =
          .error (.valueError "Network ID is not supported"))
    ∧ (∀ (self : OnrampActionProvider) (net : Network) (addr asset nid onet : String),
        net.network_id = some nid →
        convert_network_id_to_onramp_network_id nid = some onet →
        (self.get_onramp_buy_url (.ok net) (.ok addr) asset).1 =
          .ok (ONRAMP_BUY_URL ++ "?" ++
            urlencode (pySortedByKey (onrampParams self.project_id addr onet asset)))
        ∧ List.Sorted (fun a b : String => pyStrLe a b = true)
            ((pySortedByKey (onrampParams self.project_id addr onet asset)).map
              Prod.fst)) := by
  refine ⟨rfl, rfl, fun s h1 h2 => ?_, fun self net ga asset h => ?_,
    fun self net ga asset nid h1 hne h2 => ?_,
    fun self net addr asset nid onet h1 h2 => ?_⟩
  · simp [convert_network_id_to_onramp_network_id, h1, h2]
  · simp [OnrampActionProvider.get_onramp_buy_url, h]
  · rcases net with ⟨pf, onid, cid⟩
    simp only at h1
    subst h1
    have hf : pyFalsyStrOpt (some nid) = false := by simp [pyFalsyStrOpt, hne]
    simp [OnrampActionProvider.get_onramp_buy_url, hf, h2]
  · rcases net with ⟨pf, onid, cid⟩
    simp only at h1
    subst h1
    by_cases hm : nid = "base-mainnet"
    · subst hm
      have ho : onet = "base" := by
        have := h2
        simp [convert_network_id_to_onramp_network_id] at this
        exact this.symm
      subst ho
      exact ⟨rfl, by rw [pySortedByKey_onrampParams_keys]; exact onramp_keys_sorted⟩
    · by_cases hs : nid = "base-sepolia"
      · subst hs
        have ho : onet = "base-sepolia" := by
          have := h2
          simp [convert_network_id_to_onramp_network_id] at this
          exact this.symm
        subst ho
        exact ⟨rfl, by rw [pySortedByKey_onrampParams_keys]; exact onramp_keys_sorted⟩
      · exfalso
        simp [convert_network_id_to_onramp_network_id, hm, hs] at h2

theorem onramp_url_sorted_and_errors_witness :
    (({ protocol_family := "evm", network_id := some "base-mainnet",
        chain_id := some "8453" } : Network).network_id = some "base-mainnet")
    ∧ convert_network_id_to_onramp_network_id "base-mainnet" = some "base"
    ∧ (((onramp_action_provider "projW").get_onramp_buy_url
          (.ok { protocol_family := "evm", network_id := some "base-mainnet",
                 chain_id := some "8453" }) (.ok "0xW") "ETH").1 =
        .ok (ONRAMP_BUY_URL ++ "?" ++
          urlencode (pySortedByKey (onrampParams
            (onramp_action_provider "projW").project_id "0xW" "base" "ETH")))
      ∧ List.Sorted (fun a b : String => pyStrLe a b = true)
          ((pySortedByKey (onrampParams (onramp_action_provider "projW").project_id
            "0xW" "base" "ETH")).map Prod.fst)) :=
  ⟨rfl, rfl, onramp_url_sorted_and_errors.2.2.2.2.2 (onramp_action_provider "projW")
    { protocol_family := "evm", network_id := some "base-mainnet", chain_id := some "8453" }
    "0xW" "ETH" "base-mainnet" "base" rfl rfl⟩

theorem smart_wallet_tx_status_witness :
    ({ status := "failed", transaction_hash := "0xdead" } : UserOperationResult).status ≠
        "complete"
    ∧ SmartWalletProvider.send_transaction
        (.ok { status := "failed", transaction_hash := "0xdead" }) =
        .error (.exception "Transaction failed")
    ∧ (SmartWalletProvider.send_transaction
          (.ok { status := "complete", transaction_hash := "0xbeef" }) = .ok "0xbeef" ↔
        ({ status := "complete", transaction_hash := "0xbeef" } :
          UserOperationResult).status = "complete") :=
  ⟨by decide, smart_wallet_tx_status.2.1 _ (by decide), smart_wallet_tx_status.1 _⟩

theorem data_mk (cs : List Char) : (String.mk cs).data = cs := rfl

theorem digitsToNat_go (l : List Char) (acc : Nat) :
    l.foldl (fun a c => 10 * a + digitVal c) acc =
      acc * 10 ^ l.length + digitsToNat l := by
  induction l generalizing acc with
  | nil => simp [digitsToNat]
  | cons c t ih =>
    rw [List.foldl_cons, ih (10 * acc + digitVal c)]
    rw [show digitsToNat (c :: t) =
      t.foldl (fun a c => 10 * a + digitVal c) (10 * 0 + digitVal c) from rfl]
    rw [ih (10 * 0 + digitVal c)]
    simp only [List.length_cons]
    ring

theorem digitsToNat_append (a b : List Char) :
    digitsToNat (a ++ b) = digitsToNat a * 10 ^ b.length + digitsToNat b := by
  simp only [digitsToNat, List.foldl_append]
  rw [digitsToNat_go]
  rfl

theorem digitsToNat_cons (c : Char) (l : List Char) :
    digitsToNat (c :: l) = digitVal c * 10 ^ l.length + digitsToNat l := by
  rw [show digitsToNat (c :: l) =
    l.foldl (fun a c => 10 * a + digitVal c) (10 * 0 + digitVal c) from rfl]
  rw [digitsToNat_go]
  ring_nf

theorem digitsToNat_replicate_zero (k : Nat) :
    digitsToNat (List.replicate k zeroChar) = 0 := by
  induction k with
  | zero => rfl
  | succ n ih =>
    rw [List.replicate_succ, digitsToNat_cons, ih]
    simp [digitVal, zeroChar]

theorem all_digits_replicate_zero (k : Nat) :
    (List.replicate k zeroChar).all Char.isDigit = true := by
  rw [List.all_eq_true]
  intro x hx
  rw [List.eq_of_mem_replicate hx]
  decide

theorem isDigit_ne_minus {c : Char} (h : c.isDigit = true) : ¬ c = minusChar := by
  intro hc
  subst hc
  exact absurd h (by decide)

theorem isDigit_ne_dot {c : Char} (h : c.isDigit = true) : ¬ c = dotChar := by
  intro hc
  subst hc
  exact absurd h (by decide)

theorem dot_not_mem_digits {l : List Char} (h : l.all Char.isDigit = true) :
    dotChar ∉ l := by
  intro hm
  rw [List.all_eq_true] at h
  exact absurd rfl (isDigit_ne_dot (h _ hm))

theorem pyIntList_digits (cs : List Char) (h1 : cs ≠ [])
    (h2 : cs.all Char.isDigit = true) :
    pyIntList cs = .ok ((digitsToNat cs : Int)) := by
  cases cs with
  | nil => exact absurd rfl h1
  | cons c t =>
    have hc : c.isDigit = true := by
      rw [List.all_eq_true] at h2
      exact h2 _ (List.mem_cons_self _ _)
    simp only [pyIntList]
    rw [if_neg (isDigit_ne_minus hc), if_pos h2]

theorem pyIntList_minus_digits (t : List Char) (h1 : t ≠ [])
    (h2 : t.all Char.isDigit = true) :
    pyIntList (minusChar :: t) = .ok (-(digitsToNat t : Int)) := by
  simp [pyIntList, h1, h2]

theorem pyIntList_sign (neg : Bool) (cs : List Char) (h1 : cs ≠ [])
    (h2 : cs.all Char.isDigit = true) :
    pyIntList (signList neg ++ cs) =
      .ok ((if neg then -1 else 1) * (digitsToNat cs : Int)) := by
  cases neg with
  | false => simp [signList, pyIntList_digits cs h1 h2]
  | true => simp [signList, pyIntList_minus_digits cs h1 h2]

theorem splitOnChar_cons (c x : Char) (xs : List Char) :
    splitOnChar c (x :: xs) =
      match splitOnChar c xs with
      | [] => [[]]
      | h :: t => if x = c then [] :: h :: t else (x :: h) :: t := rfl

theorem splitOnChar_ne_nil (c : Char) (l : List Char) : splitOnChar c l ≠ [] := by
  induction l with
  | nil => simp [splitOnChar]
  | cons x xs ih =>
    unfold splitOnChar
    rcases hs : splitOnChar c xs with _ | ⟨h, t⟩
    · exact absurd hs ih
    · by_cases hx : x = c <;> simp [hx]

theorem splitOnChar_not_mem {c : Char} {l : List Char} (h : c ∉ l) :
    splitOnChar c l = [l] := by
  induction l with
  | nil => rfl
  | cons x xs ih =>
    have hx : ¬ x = c := by
      intro e
      exact h (by rw [← e]; exact List.mem_cons_self x xs)
    have hxs : c ∉ xs := fun m => h (List.mem_cons_of_mem _ m)
    unfold splitOnChar
    rw [ih hxs]
    simp [hx]

theorem splitOnChar_append (c : Char) (a b : List Char) (h : c ∉ a) :
    splitOnChar c (a ++ c :: b) = a :: splitOnChar c b := by
  induction a with
  | nil =>
    simp only [List.nil_append]
    rw [splitOnChar_cons]
    rcases hs : splitOnChar c b with _ | ⟨hh, tt⟩
    · exact absurd hs (splitOnChar_ne_nil c b)
    · simp
  | cons x xs ih =>
    have hx : ¬ x = c := by
      intro e
      exact h (by rw [← e]; exact List.mem_cons_self x xs)
    have hxs : c ∉ xs := fun m => h (List.mem_cons_of_mem _ m)
    simp only [List.cons_append]
    rw [splitOnChar_cons, ih hxs]
    simp [hx]

theorem dropWhile_append_all {p : Char → Bool} {a : List Char} (b : List Char)
    (h : a.all p = true) : (a ++ b).dropWhile p = b.dropWhile p := by
  induction a with
  | nil => rfl
  | cons x xs ih =>
    rw [List.all_cons, Bool.and_eq_true] at h
    simp [List.dropWhile_cons, h.1, ih h.2]

theorem rstripZeros_decomp (l : List Char) :
    l = rstripZeros l ++
      List.replicate (l.length - (rstripZeros l).length) zeroChar := by
  have hsplit := List.takeWhile_append_dropWhile (p := fun c => c = zeroChar)
    (l := l.reverse)
  have h1 : l = (rstripZeros l) ++
      (l.reverse.takeWhile (fun c => c = zeroChar)).reverse := by
    calc l = l.reverse.reverse := (List.reverse_reverse l).symm
    _ = (l.reverse.takeWhile (fun c => c = zeroChar) ++
          l.reverse.dropWhile (fun c => c = zeroChar)).reverse := by rw [hsplit]
    _ = (l.reverse.dropWhile (fun c => c = zeroChar)).reverse ++
          (l.reverse.takeWhile (fun c => c = zeroChar)).reverse := by
        rw [List.reverse_append]
    _ = _ := rfl
  have h2 : (l.reverse.takeWhile (fun c => c = zeroChar)).reverse =
      List.replicate (l.reverse.takeWhile (fun c => c = zeroChar)).reverse.length
        zeroChar := by
    rw [List.eq_replicate_length]
    intro b hb
    rw [List.mem_reverse] at hb
    have := List.mem_takeWhile_imp hb
    exact of_decide_eq_true this
  have h3 : (l.reverse.takeWhile (fun c => c = zeroChar)).reverse.length =
      l.length - (rstripZeros l).length := by
    have hlen := congrArg List.length h1
    simp only [List.length_append, List.length_reverse] at hlen ⊢
    omega
  rw [← h3, ← h2]
  exact h1

theorem rstripZeros_all_digits {l : List Char} (h : l.all Char.isDigit = true) :
    (rstripZeros l).all Char.isDigit = true := by
  rw [rstripZeros_decomp l, List.all_append, Bool.and_eq_true] at h
  exact h.1

theorem rstripZeros_length_le (l : List Char) :
    (rstripZeros l).length ≤ l.length := by
  have hd := congrArg List.length (rstripZeros_decomp l)
  simp only [List.length_append, List.length_replicate] at hd
  omega

theorem digitsToNat_rstrip (l : List Char) :
    digitsToNat l =
      digitsToNat (rstripZeros l) * 10 ^ (l.length - (rstripZeros l).length) := by
  conv_lhs => rw [rstripZeros_decomp l]
  rw [digitsToNat_append, digitsToNat_replicate_zero, List.length_replicate]
  omega

theorem data_append (s t : String) : (s ++ t).data = s.data ++ t.data := rfl

theorem pyIntList_shape (cs : List Char) :
    (∃ n, pyIntList cs = .ok n) ∨
      ∃ ds, pyIntList cs = .error (.valueError (intErrMsg ds)) := by
  cases cs with
  | nil => exact .inr ⟨[], rfl⟩
  | cons c t =>
    simp only [pyIntList]
    by_cases h1 : c = minusChar
    · rw [if_pos h1]
      by_cases h2 : t ≠ [] ∧ t.all Char.isDigit = true
      · rw [if_pos h2]
        exact .inl ⟨_, rfl⟩
      · rw [if_neg h2]
        exact .inr ⟨c :: t, rfl⟩
    · rw [if_neg h1]
      by_cases h2 : (c :: t).all Char.isDigit = true
      · rw [if_pos h2]
        exact .inl ⟨_, rfl⟩
      · rw [if_neg h2]
        exact .inr ⟨c :: t, rfl⟩

theorem pyIntList_error_shape {cs : List Char} {e : PyError}
    (h : pyIntList cs = .error e) : ∃ ds, e = .valueError (intErrMsg ds) := by
  rcases pyIntList_shape cs with ⟨n, hn⟩ | ⟨ds, hd⟩
  · rw [h] at hn
    exact absurd hn (by simp)
  · rw [h] at hd
    simp only [Except.error.injEq] at hd
    exact ⟨ds, hd⟩

theorem roundZeroCase_shape (neg : Bool) (i f : List Char) :
    (∃ n, roundZeroCase neg i f = .ok n) ∨
      ∃ ds, roundZeroCase neg i f = .error (.valueError (intErrMsg ds)) := by
  unfold roundZeroCase
  by_cases h : f ≠ [] ∧ pyRoundFrac [zeroChar] f = 1
  · rw [if_pos h]
    cases hpi : pyIntList i with
    | error e =>
      obtain ⟨ds, rfl⟩ := pyIntList_error_shape hpi
      exact .inr ⟨ds, rfl⟩
    | ok n => exact pyIntList_shape _
  · rw [if_neg h]
    exact pyIntList_shape _

theorem overflowCase_shape (neg : Bool) (i f : List Char) (decimals : Nat) :
    (∃ n, overflowCase neg i f decimals = .ok n) ∨
      ∃ ds, overflowCase neg i f decimals = .error (.valueError (intErrMsg ds)) := by
  simp only [overflowCase]
  by_cases h9 : pyRoundFrac ((f.drop (decimals - 1)).take 1) (f.drop decimals) > 9
  · rw [if_pos h9]
    cases hpl : pyIntList (f.take (decimals - 1)) with
    | error e =>
      obtain ⟨ds, rfl⟩ := pyIntList_error_shape hpl
      exact .inr ⟨ds, rfl⟩
    | ok l =>
      simp only []
      by_cases hl : (zfill (toString (l + 1)).data ((f.take (decimals - 1)).length + 1)).length > decimals
      · rw [if_pos hl]
        cases hpi : pyIntList i with
        | error e =>
          obtain ⟨ds, rfl⟩ := pyIntList_error_shape hpi
          exact .inr ⟨ds, rfl⟩
        | ok n => exact pyIntList_shape _
      · rw [if_neg hl]
        exact pyIntList_shape _
  · rw [if_neg h9]
    simp only []
    by_cases hl : ((f.take (decimals - 1)) ++
        (toString (pyRoundFrac ((f.drop (decimals - 1)).take 1) (f.drop decimals))).data).length > decimals
    · rw [if_pos hl]
      cases hpi : pyIntList i with
      | error e =>
        obtain ⟨ds, rfl⟩ := pyIntList_error_shape hpi
        exact .inr ⟨ds, rfl⟩
      | ok n => exact pyIntList_shape _
    · rw [if_neg hl]
      exact pyIntList_shape _

theorem parse_units_shape (value : String) (decimals : Nat)
    (h : matchesDecimalRegex value.data = true) :
    (∃ n, parse_units value decimals = .ok n) ∨
      ∃ ds, parse_units value decimals = .error (.valueError (intErrMsg ds)) := by
  simp only [parse_units]
  rw [if_pos h]
  by_cases h0 : decimals = 0
  · rw [if_pos h0]
    exact roundZeroCase_shape _ _ _
  · rw [if_neg h0]
    by_cases h1 : (rstripZeros (if (splitOnChar dotChar value.data).length > 1 then
        (splitOnChar dotChar value.data).getD 1 [] else [zeroChar])).length > decimals
    · rw [if_pos h1]
      exact overflowCase_shape _ _ _ _
    · rw [if_neg h1]
      exact pyIntList_shape _

theorem intErrMsg_ne_guard (ds : List Char) (v : String) :
    intErrMsg ds ≠ "Invalid decimal number: " ++ v := by
  intro h
  have h2 := congrArg (fun s : String => s.data.head?) h
  simp only [intErrMsg, data_append] at h2
  rw [List.head?_append_of_ne_nil _ (by decide),
    List.head?_append_of_ne_nil _ (by decide)] at h2
  exact absurd h2 (by decide)

theorem pyIntList_replicate_zero (k : Nat) :
    pyIntList (List.replicate (k + 1) zeroChar) = .ok 0 := by
  rw [pyIntList_digits _ (by simp) (all_digits_replicate_zero _),
    digitsToNat_replicate_zero]
  rfl

theorem parse_units_empty_pos (d : Nat) : parse_units "" (d + 1) = .ok 0 := by
  show parse_units (String.mk []) (d + 1) = .ok 0
  simp only [parse_units, data_mk,
    show splitOnChar dotChar [] = [[]] from rfl]
  norm_num [show matchesDecimalRegex [] = true from rfl,
    show rstripZeros [zeroChar] = [] from rfl, signList, pyIntList_replicate_zero]
  rw [if_neg (show ¬ ((none : Option Char) = some minusChar) by simp)]
  exact pyIntList_replicate_zero d

theorem parse_units_dot_pos (d : Nat) : parse_units "." (d + 1) = .ok 0 := by
  show parse_units (String.mk [dotChar]) (d + 1) = .ok 0
  simp only [parse_units, data_mk,
    show matchesDecimalRegex [dotChar] = true from rfl,
    show splitOnChar dotChar [dotChar] = [[], []] from rfl]
  norm_num [show rstripZeros [] = [] from rfl, signList, pyIntList_replicate_zero]
  rw [if_neg (show ¬ ((none : Option Char) = some minusChar) by simp)]
  exact pyIntList_replicate_zero d

theorem parse_units_minus_pos (d : Nat) : parse_units "-" (d + 1) = .ok 0 := by
  show parse_units (String.mk [minusChar]) (d + 1) = .ok 0
  simp only [parse_units, data_mk,
    show matchesDecimalRegex [minusChar] = true from rfl,
    show splitOnChar dotChar [minusChar] = [[minusChar]] from rfl]
  norm_num [show rstripZeros [zeroChar] = [] from rfl, signList,
    pyIntList_minus_digits _ (show List.replicate (d + 1) zeroChar ≠ [] by simp)
      (all_digits_replicate_zero (d + 1)),
    digitsToNat_replicate_zero]

/-- C8 (amended): `parse_units` raises the guard error
`Invalid decimal number: <value>` exactly for the strings rejected by the
decimal regex; but an accepted input can still raise a different
`ValueError` from `int` on an empty digit string — with `decimals = 0` the
accepted inputs with no integer digits (such as the empty string, a lone
dot, a lone minus) raise `invalid literal for int()`, while with
`decimals > 0` those same inputs are mapped to the integer 0. -/
theorem parse_units_guard_and_totality :
    (∀ (value : String) (decimals : Nat),
        parse_units value decimals =
          .error (.valueError ("Invalid decimal number: " ++ value)) ↔
        matchesDecimalRegex value.data = false)
    ∧ (∀ d : Nat, parse_units "" (d + 1) = .ok 0 ∧ parse_units "." (d + 1) = .ok 0 ∧
        parse_units "-" (d + 1) = .ok 0)
    ∧ parse_units "" 0 = .error (.valueError (intErrMsg []))
    ∧ parse_units "." 0 = .error (.valueError (intErrMsg []))
    ∧ parse_units "-" 0 = .error (.valueError (intErrMsg [minusChar])) := by
  refine ⟨fun value decimals => ⟨fun h => ?_, fun h => ?_⟩,
    fun d => ⟨parse_units_empty_pos d, parse_units_dot_pos d, parse_units_minus_pos d⟩,
    by decide, by decide, by decide⟩
  · by_contra hb
    have ht : matchesDecimalRegex value.data = true := by
      cases hx : matchesDecimalRegex value.data
      · exact absurd hx hb
      · rfl
    rcases parse_units_shape value decimals ht with ⟨n, hn⟩ | ⟨ds, hd⟩
    · rw [h] at hn
      exact absurd hn (by simp)
    · rw [h] at hd
      simp only [Except.error.injEq, PyError.valueError.injEq] at hd
      exact intErrMsg_ne_guard ds value hd.symm
  · simp [parse_units, h]

/-- C8 counterexample: the empty string is accepted by the guard regex, yet
`parse_units("", 0)` raises the `int` error, which is not the guard message
— so acceptance by the guard does not imply an integer is returned. -/
theorem parse_units_accepted_raises_cex :
    matchesDecimalRegex "".data = true
    ∧ parse_units "" 0 = .error (.valueError (intErrMsg []))
    ∧ intErrMsg [] ≠ "Invalid decimal number: " :=
  ⟨rfl, by decide, by decide⟩

theorem matchesDecimalRegex_shape (neg hasDot : Bool) (I F : List Char)
    (hI : I.all Char.isDigit = true) (hF : F.all Char.isDigit = true) :
    matchesDecimalRegex
      (signList neg ++ I ++ (if hasDot then dotChar :: F else [])) = true := by
  have hdw : (I ++ (if hasDot then dotChar :: F else [])).dropWhile Char.isDigit =
      ((if hasDot then dotChar :: F else []) : List Char).dropWhile Char.isDigit :=
    dropWhile_append_all _ hI
  have hdw2 : ((if hasDot then dotChar :: F else []) : List Char).dropWhile Char.isDigit =
      (if hasDot then dotChar :: F else []) := by
    cases hasDot with
    | true =>
      show (dotChar :: F).dropWhile Char.isDigit = dotChar :: F
      exact List.dropWhile_cons_of_neg (by decide)
    | false => rfl
  have hmatch : (match (I ++ (if hasDot then dotChar :: F else [])).dropWhile Char.isDigit with
      | [] => true
      | c :: t => decide (c = dotChar) && t.all Char.isDigit) = true := by
    rw [hdw, hdw2]
    cases hasDot with
    | true => simp [hF]
    | false => rfl
  cases neg with
  | true =>
    have he : signList true ++ I ++ (if hasDot then dotChar :: F else []) =
        minusChar :: (I ++ (if hasDot then dotChar :: F else [])) := by
      simp [signList]
    rw [he]
    simp only [matchesDecimalRegex, List.head?_cons, List.tail_cons, if_pos rfl]
    exact hmatch
  | false =>
    have he : signList false ++ I ++ (if hasDot then dotChar :: F else []) =
        I ++ (if hasDot then dotChar :: F else []) := by simp [signList]
    rw [he]
    have hhead : ¬ ((I ++ (if hasDot then dotChar :: F else [])).head? = some minusChar) := by
      cases I with
      | nil =>
        cases hasDot with
        | true =>
          show ¬ ((dotChar :: F).head? = some minusChar)
          simp only [List.head?_cons, Option.some.injEq]
          decide
        | false =>
          show ¬ (([] : List Char).head? = some minusChar)
          simp
      | cons c I2 =>
        have hc : c.isDigit = true := by
          rw [List.all_eq_true] at hI
          exact hI _ (List.mem_cons_self _ _)
        simp only [List.cons_append, List.head?_cons, Option.some.injEq]
        exact isDigit_ne_minus hc
    simp only [matchesDecimalRegex, if_neg hhead]
    exact hmatch

theorem signList_head_decide (neg : Bool) (I : List Char)
    (hI : I.all Char.isDigit = true) :
    decide ((signList neg ++ I).head? = some minusChar) = neg := by
  cases neg with
  | true => simp [signList]
  | false =>
    cases I with
    | nil => simp [signList]
    | cons c I2 =>
      have hc : c.isDigit = true := by
        rw [List.all_eq_true] at hI
        exact hI _ (List.mem_cons_self _ _)
      simp [signList, isDigit_ne_minus hc]

/-- The computation of `parse_units` after the guard, split, sign strip and
zero strip, expressed on the stripped components: with the stripped fraction
short enough the rounding branches are dead, and the rebuilt digit string
reads back as the scaled value. -/
theorem parse_units_afterSplit (negative : Bool) (integer1 fraction1 : List Char)
    (decimals : Nat)
    (hI : integer1.all Char.isDigit = true)
    (hne : integer1 ≠ [] ∨ decimals ≠ 0)
    (hf : fraction1.all Char.isDigit = true)
    (hlen : fraction1.length ≤ decimals) :
    (if decimals = 0 then roundZeroCase negative integer1 fraction1
     else if fraction1.length > decimals then
       overflowCase negative integer1 fraction1 decimals
     else pyIntList (signList negative ++ integer1 ++
       (fraction1 ++ List.replicate (decimals - fraction1.length) zeroChar))) =
    .ok ((if negative then -1 else 1) *
      ((digitsToNat integer1 : Int) * 10 ^ decimals +
        (digitsToNat fraction1 : Int) * 10 ^ (decimals - fraction1.length))) := by
  by_cases h0 : decimals = 0
  · subst h0
    have hf0 : fraction1 = [] := List.length_eq_zero.mp (Nat.le_zero.mp hlen)
    subst hf0
    rw [if_pos rfl]
    unfold roundZeroCase
    rw [if_neg (by simp)]
    rw [pyIntList_sign negative integer1 (hne.resolve_right (by simp)) hI]
    congr 1
    simp [digitsToNat]
  · rw [if_neg h0, if_neg (by omega : ¬ fraction1.length > decimals)]
    have hne2 : integer1 ++ (fraction1 ++
        List.replicate (decimals - fraction1.length) zeroChar) ≠ [] := by
      intro h
      have := congrArg List.length h
      simp only [List.length_append, List.length_replicate, List.length_nil] at this
      omega
    have hall : (integer1 ++ (fraction1 ++
        List.replicate (decimals - fraction1.length) zeroChar)).all Char.isDigit = true := by
      simp only [List.all_append, Bool.and_eq_true]
      exact ⟨hI, hf, all_digits_replicate_zero _⟩
    rw [List.append_assoc, pyIntList_sign negative _ hne2 hall]
    congr 1
    rw [digitsToNat_append, digitsToNat_append, digitsToNat_replicate_zero,
      List.length_append, List.length_replicate, Nat.add_sub_cancel' hlen]
    push_cast
    ring

/-- Scaling identity between the integer `parse_units` builds and the
rational denoted by the decimal string. -/
theorem decimalRat_scale (neg : Bool) (I F : List Char) (decimals : Nat)
    (hlen : F.length ≤ decimals) :
    (((if neg then (-1 : Int) else 1) * ((digitsToNat I : Int) * 10 ^ decimals +
        (digitsToNat F : Int) * 10 ^ (decimals - F.length)) : Int) : ℚ) =
      decimalRat neg I F * 10 ^ decimals := by
  have hpow : ((10 : ℚ)) ^ (decimals - F.length) * 10 ^ F.length = 10 ^ decimals := by
    rw [← pow_add, Nat.sub_add_cancel hlen]
  have h10 : ((10 : ℚ)) ^ F.length ≠ 0 := by positivity
  unfold decimalRat
  cases neg with
  | false =>
    push_cast
    field_simp
    linear_combination (digitsToNat F : ℚ) * hpow
  | true =>
    push_cast
    field_simp
    linear_combination (-(digitsToNat F : ℚ)) * hpow

theorem signList_tail_if (neg : Bool) (I : List Char) :
    (if neg = true then (signList neg ++ I).tail else signList neg ++ I) = I := by
  cases neg <;> simp [signList]

theorem dot_not_mem_sign_digits {neg : Bool} {I : List Char}
    (hI : I.all Char.isDigit = true) : dotChar ∉ signList neg ++ I := by
  intro hm
  rcases List.mem_append.mp hm with h | h
  · cases neg with
    | true =>
      simp [signList] at h
      exact absurd h (by decide)
    | false => simp [signList] at h
  · exact dot_not_mem_digits hI h

/-- `parse_units` on a well-formed decimal string whose fraction fits in
`decimals` digits returns exactly the scaled integer. -/
theorem parse_units_exact_int (neg hasDot : Bool) (I F : List Char) (decimals : Nat)
    (hI : I.all Char.isDigit = true) (hF : F.all Char.isDigit = true)
    (hne : I ≠ [] ∨ F ≠ []) (hdot : hasDot = false → F = [])
    (hlen : F.length ≤ decimals) :
    parse_units (decimalString neg hasDot I F) decimals =
      .ok ((if neg then -1 else 1) * ((digitsToNat I : Int) * 10 ^ decimals +
        (digitsToNat F : Int) * 10 ^ (decimals - F.length))) := by
  have hnm : dotChar ∉ signList neg ++ I := dot_not_mem_sign_digits hI
  cases hasDot with
  | false =>
    have hF0 : F = [] := hdot rfl
    subst hF0
    have hIne : I ≠ [] := hne.resolve_right (by simp)
    have hls : decimalString neg false I [] = String.mk (signList neg ++ I) := by
      simp [decimalString]
    rw [hls]
    simp only [parse_units, data_mk]
    rw [if_pos (by simpa using matchesDecimalRegex_shape neg false I [] hI (by simp))]
    rw [splitOnChar_not_mem hnm]
    rw [show ([signList neg ++ I] : List (List Char)).getD 0 [] = signList neg ++ I from rfl]
    rw [show ([signList neg ++ I] : List (List Char)).length = 1 from rfl]
    rw [if_neg (by norm_num : ¬ (1 : Nat) > 1)]
    rw [signList_head_decide neg I hI, signList_tail_if neg I]
    rw [show rstripZeros [zeroChar] = [] from rfl]
    rw [parse_units_afterSplit neg I [] decimals hI (Or.inl hIne) (by decide) (by simp)]
  | true =>
    have hre : matchesDecimalRegex ((signList neg ++ I) ++ dotChar :: F) = true := by
      have := matchesDecimalRegex_shape neg true I F hI hF
      simpa [List.append_assoc] using this
    have hls : decimalString neg true I F =
        String.mk ((signList neg ++ I) ++ dotChar :: F) := by
      simp [decimalString, List.append_assoc]
    have hne2 : I ≠ [] ∨ decimals ≠ 0 := by
      by_cases hd0 : decimals = 0
      · left
        have hF0 : F = [] := List.length_eq_zero.mp (Nat.le_zero.mp (hd0 ▸ hlen))
        exact hne.resolve_right (by simp [hF0])
      · right
        exact hd0
    have hlen2 : (rstripZeros F).length ≤ decimals :=
      le_trans (rstripZeros_length_le F) hlen
    have hrel : (digitsToNat (rstripZeros F) : Int) *
        10 ^ (decimals - (rstripZeros F).length) =
        (digitsToNat F : Int) * 10 ^ (decimals - F.length) := by
      have h1 : digitsToNat F = digitsToNat (rstripZeros F) *
          10 ^ (F.length - (rstripZeros F).length) := digitsToNat_rstrip F
      have h2 : (rstripZeros F).length ≤ F.length := rstripZeros_length_le F
      have hexp : decimals - (rstripZeros F).length =
          (F.length - (rstripZeros F).length) + (decimals - F.length) := by omega
      rw [hexp, pow_add, ← mul_assoc]
      have h1i : (digitsToNat F : Int) =
          (digitsToNat (rstripZeros F) : Int) *
            10 ^ (F.length - (rstripZeros F).length) := by
        exact_mod_cast congrArg (fun n : Nat => (n : Int)) h1
      rw [← h1i]
    rw [hls]
    simp only [parse_units, data_mk]
    rw [if_pos hre]
    rw [splitOnChar_append dotChar (signList neg ++ I) F hnm,
      splitOnChar_not_mem (dot_not_mem_digits hF)]
    rw [show ([signList neg ++ I, F] : List (List Char)).getD 0 [] =
      signList neg ++ I from rfl]
    rw [show ([signList neg ++ I, F] : List (List Char)).length = 2 from rfl]
    rw [if_pos (by norm_num : (2 : Nat) > 1)]
    rw [show ([signList neg ++ I, F] : List (List Char)).getD 1 [] = F from rfl]
    rw [signList_head_decide neg I hI, signList_tail_if neg I]
    rw [parse_units_afterSplit neg I (rstripZeros F) decimals hI hne2
      (rstripZeros_all_digits hF) hlen2]
    rw [hrel]

/-- C3: on every decimal string built from an optional minus sign, integer
digits and (optionally) a dot with at most `decimals` fraction digits,
`parse_units` returns exactly the integer equal to the denoted rational
number multiplied by `10 ^ decimals`. -/
theorem parse_units_exact (neg hasDot : Bool) (I F : List Char) (decimals : Nat)
    (hI : I.all Char.isDigit = true) (hF : F.all Char.isDigit = true)
    (hne : I ≠ [] ∨ F ≠ []) (hdot : hasDot = false → F = [])
    (hlen : F.length ≤ decimals) :
    ∃ n : Int,
      parse_units (decimalString neg hasDot I F) decimals = .ok n ∧
      (n : ℚ) = decimalRat neg I F * 10 ^ decimals :=
  ⟨_, parse_units_exact_int neg hasDot I F decimals hI hF hne hdot hlen,
    decimalRat_scale neg I F decimals hlen⟩

theorem parse_units_exact_witness :
    ((['1'] : List Char).all Char.isDigit = true)
    ∧ ((['2', '5'] : List Char).all Char.isDigit = true)
    ∧ ((['1'] : List Char) ≠ [] ∨ (['2', '5'] : List Char) ≠ [])
    ∧ ((true : Bool) = false → (['2', '5'] : List Char) = [])
    ∧ ((['2', '5'] : List Char).length ≤ 3)
    ∧ ∃ n : Int,
        parse_units (decimalString true true ['1'] ['2', '5']) 3 = .ok n ∧
        (n : ℚ) = decimalRat true ['1'] ['2', '5'] * 10 ^ 3 :=
  ⟨by decide, by decide, by decide, by decide, by decide,
    parse_units_exact true true ['1'] ['2', '5'] 3 (by decide) (by decide)
      (by decide) (by decide) (by decide)⟩
